import Mathlib

/-!
Verification of the file-per-key store in `src/main.rs`.

The embedding models:
* `calculate_hash` — Rust's `DefaultHasher` is SipHash-1-3 with both keys 0;
  hashing a `String` feeds its UTF-8 bytes followed by a single `0xff` byte
  to the hasher.  We implement SipHash-1-3 over `Nat` with explicit `% 2^64`.
* `DB.store` / `DB.retrive` / `DB.new` — the root directory is a finite map
  from digests to record-file contents (`FS`); each fallible filesystem call
  is given its outcome by an oracle `Env`, so that error paths of the code
  are explicit.  `DB.store`/`DB.retrive` return `Option` results where
  `none` models abnormal termination (the `to_str().unwrap()` panic path).
-/

/-- Truncation to 64 bits: Rust `u64` wrapping arithmetic. -/
def w64 (n : Nat) : Nat := n % (2 ^ 64)

/-- 64-bit left rotation, as used by the SipHash rounds. -/
def rotl64 (x n : Nat) : Nat := w64 ((x <<< n) ||| (x >>> (64 - n)))

/-- The four 64-bit words of SipHash internal state (`v0..v3` in `sip.rs`). -/
structure SipState where
  v0 : Nat
  v1 : Nat
  v2 : Nat
  v3 : Nat

/-- One SipHash round (`compress!` in Rust's `sip.rs`). -/
def sipround (s : SipState) : SipState :=
  let a0 := w64 (s.v0 + s.v1)
  let a1 := rotl64 s.v1 13
  let b1 := a1 ^^^ a0
  let b0 := rotl64 a0 32
  let a2 := w64 (s.v2 + s.v3)
  let a3 := rotl64 s.v3 16
  let b3 := a3 ^^^ a2
  let c0 := w64 (b0 + b3)
  let c3 := rotl64 b3 21
  let d3 := c3 ^^^ c0
  let c2 := w64 (a2 + b1)
  let c1 := rotl64 b1 17
  let d1 := c1 ^^^ c2
  let d2 := rotl64 c2 32
  ⟨c0, d1, d2, d3⟩

/-- Little-endian value of a byte list (first byte is least significant). -/
def leWord (bs : List Nat) : Nat :=
  bs.foldr (fun b acc => b + 256 * acc) 0

/-- Compression of one message word `m`: `v3 ^= m`; one round (c = 1 for
SipHash-1-3); `v0 ^= m`. -/
def sipCompress (s : SipState) (m : Nat) : SipState :=
  let s1 : SipState := ⟨s.v0, s.v1, s.v2, s.v3 ^^^ m⟩
  let s2 := sipround s1
  ⟨s2.v0 ^^^ m, s2.v1, s2.v2, s2.v3⟩

/-- Process the message bytes eight at a time, returning the state after all
full words together with the leftover (fewer than eight) bytes. -/
def sipBody (s : SipState) : List Nat → SipState × List Nat
  | b0 :: b1 :: b2 :: b3 :: b4 :: b5 :: b6 :: b7 :: rest =>
      sipBody (sipCompress s (leWord [b0, b1, b2, b3, b4, b5, b6, b7])) rest
  | rest => (s, rest)

/-- SipHash-1-3 with key (0, 0) — the algorithm behind Rust's
`DefaultHasher`.  Initial state is the SipHash constants (xor with a zero key
is the identity); after the full words, the final word packs the low byte of
the total length in the top byte over the leftover bytes; finalization xors
`0xff` into `v2` and applies three rounds (d = 3). -/
def siphash13 (msg : List Nat) : Nat :=
  let init : SipState :=
    ⟨0x736f6d6570736575, 0x646f72616e646f6d, 0x6c7967656e657261, 0x7465646279746573⟩
  let body := sipBody init msg
  let b := (msg.length % 256) * (2 ^ 56) + leWord body.2
  let s1 := sipCompress body.1 b
  let s2 : SipState := ⟨s1.v0, s1.v1, s1.v2 ^^^ 0xff, s1.v3⟩
  let s3 := sipround (sipround (sipround s2))
  w64 (s3.v0 ^^^ s3.v1 ^^^ s3.v2 ^^^ s3.v3)

/-- UTF-8 encoding of a single code point. -/
def utf8EncodeChar (c : Nat) : List Nat :=
  if c < 0x80 then [c]
  else if c < 0x800 then
    [0xC0 ||| (c >>> 6), 0x80 ||| (c &&& 0x3F)]
  else if c < 0x10000 then
    [0xE0 ||| (c >>> 12), 0x80 ||| ((c >>> 6) &&& 0x3F), 0x80 ||| (c &&& 0x3F)]
  else
    [0xF0 ||| (c >>> 18), 0x80 ||| ((c >>> 12) &&& 0x3F),
     0x80 ||| ((c >>> 6) &&& 0x3F), 0x80 ||| (c &&& 0x3F)]

/-- The UTF-8 bytes of a string (what `str::as_bytes` yields). -/
def stringBytes (s : String) : List Nat :=
  s.data.foldr (fun c acc => utf8EncodeChar c.toNat ++ acc) []

/-- `calculate_hash` from `src/main.rs` at `T = String`: feed the string's
bytes and a trailing `0xff` byte (Rust's `Hash for str`) into a fresh
`DefaultHasher` (SipHash-1-3, zero key) and `finish`. -/
def calculate_hash (key : String) : Nat :=
  siphash13 (stringBytes key ++ [0xff])

/-!
## The store model

The root directory's record files are represented by `FS`, a map from the
64-bit digest to the file's content; the record file for digest `d` is the
filesystem entry named `root ++ "/" ++ Nat.repr d` (decimal naming is
injective, so indexing by digest is faithful).  `Env` is the oracle giving
each fallible filesystem call of one operation its outcome.
-/

/-- Outcomes of the fallible filesystem calls made by one `store`/`retrive`
call: the `metadata` existence probe, `OpenOptions::open` /` File::create`,
`write_all` (with the number of bytes that land when it fails), `File::open`
on the read side, and `read_to_string`. -/
structure Env where
  metaOk : Bool
  openOk : Bool
  createOk : Bool
  writeOk : Bool
  partialLen : Nat
  openReadOk : Bool
  readOk : Bool

/-- Every filesystem call succeeds (a healthy disk). -/
def Env.allOk : Env := ⟨true, true, true, true, 0, true, true⟩

/-- `PathBuf` built from a Rust `String` keeps that string's (valid UTF-8)
bytes. -/
abbrev PathBuf : Type := String

/-- `Path::to_str` returns `Some` exactly when the path's bytes are valid
UTF-8; a `PathBuf` originating from a Rust `String` always is, which the
embedding reflects by construction. -/
def PathBuf.to_str (p : PathBuf) : Option String := some p

/-- The contents of the store root: digest ↦ record-file content. -/
def FS : Type := Nat → Option String

/-- Point update of the root directory. -/
def FS.update (fs : FS) (d : Nat) (v : Option String) : FS :=
  fun e => if e = d then v else fs e

/-- A freshly created, empty root directory. -/
def emptyFS : FS := fun _ => none

/-- The store handle (`struct DB { storage: PathBuf }`). -/
structure DB where
  storage : PathBuf

/-- The `file_name` string computed at the top of `store`/`retrive`:
`format!("{}/{}", self.storage.to_str().unwrap(), hash(key).to_string())`;
`none` models the `unwrap` panic.  Generic in the hash function; the code
instantiates it with `calculate_hash` (`DB.file_name`). -/
def DB.file_nameWith (hash : String → Nat) (db : DB) (key : String) : Option String :=
  (PathBuf.to_str db.storage).map (fun root => root ++ "/" ++ Nat.repr (hash key))

/-- `DB::store`, generic in the hash function.  Mirrors the source:
resolve the file name (panic → `none`); probe existence with `metadata`;
if it "exists", open with `write(true).truncate(true)` (success truncates
the file to empty), otherwise `File::create` (success leaves an empty
file, truncating any file the probe missed); on open/create failure
(`.ok()` gives `None`) do nothing; otherwise `write_all(val)`, whose
failure is ignored after some prefix of `val` has landed. -/
def DB.storeWith (hash : String → Nat) (env : Env) (db : DB) (fs : FS)
    (key val : String) : Option FS :=
  match PathBuf.to_str db.storage with
  | none => none
  | some _root =>
    let d := hash key
    let file_exists := (fs d).isSome && env.metaOk
    let file_result :=
      if file_exists then
        if env.openOk then some (FS.update fs d (some "")) else none
      else
        if env.createOk then some (FS.update fs d (some "")) else none
    match file_result with
    | none => some fs
    | some fs1 =>
      if env.writeOk then some (FS.update fs1 d (some val))
      else some (FS.update fs1 d (some (val.take env.partialLen)))

/-- `DB::retrive`, generic in the hash function.  Mirrors the source:
resolve the file name (panic → `none`); `File::open` — a missing file or a
failing open returns `None` to the caller; `read_to_string` — a failing
read returns `None`; otherwise the whole content.  The second component is
the root directory after the call (retrieval performs no write). -/
def DB.retriveWith (hash : String → Nat) (env : Env) (db : DB) (fs : FS)
    (key : String) : Option (Option String × FS) :=
  match PathBuf.to_str db.storage with
  | none => none
  | some _root =>
    let d := hash key
    match fs d with
    | none => some (none, fs)
    | some content =>
      if env.openReadOk then
        if env.readOk then some (some content, fs) else some (none, fs)
      else some (none, fs)

/-- `DB::store` as written: `storeWith` at `calculate_hash`. -/
def DB.store (env : Env) (db : DB) (fs : FS) (key val : String) : Option FS :=
  DB.storeWith calculate_hash env db fs key val

/-- `DB::retrive` as written: `retriveWith` at `calculate_hash`. -/
def DB.retrive (env : Env) (db : DB) (fs : FS) (key : String) :
    Option (Option String × FS) :=
  DB.retriveWith calculate_hash env db fs key

/-- The `file_name` of `key` under `db`, as the source computes it. -/
def DB.file_name (db : DB) (key : String) : Option String :=
  DB.file_nameWith calculate_hash db key

/-- The store state seen by `DB::new`: whether the root directory exists,
and the record files under it. -/
structure DirFS where
  rootExists : Bool
  files : FS

/-- `DB::new`: `create_dir(path)`; an `AlreadyExists` error is swallowed,
any other error panics (`none`); on success the root now exists, the files
under it untouched.  Returns the handle bound to `path`. -/
def DB.new (createDirOk : Bool) (path : String) (st : DirFS) :
    Option (DB × DirFS) :=
  if st.rootExists then some (⟨path⟩, st)
  else if createDirOk then some (⟨path⟩, ⟨true, st.files⟩)
  else none

/-- The new root-directory contents after a `store` call (the source's
`store` returns `()`; its effect is on the filesystem).  On the panic path
(never taken, see `DB.file_name`) the directory is returned unchanged. -/
def DB.storeRunWith (hash : String → Nat) (env : Env) (db : DB) (fs : FS)
    (key val : String) : FS :=
  (DB.storeWith hash env db fs key val).getD fs

/-- The `Option<String>` a `retrive` call returns. -/
def DB.retriveRunWith (hash : String → Nat) (env : Env) (db : DB) (fs : FS)
    (key : String) : Option String :=
  ((DB.retriveWith hash env db fs key).getD (none, fs)).1

/-- Effect of `DB::store` with the hash the code uses. -/
def DB.storeRun (env : Env) (db : DB) (fs : FS) (key val : String) : FS :=
  DB.storeRunWith calculate_hash env db fs key val

/-- Result of `DB::retrive` with the hash the code uses. -/
def DB.retriveRun (env : Env) (db : DB) (fs : FS) (key : String) :
    Option String :=
  DB.retriveRunWith calculate_hash env db fs key

/-- Run a sequence of `store` calls (a trace of writers), left to right. -/
def applyStores (env : Env) (db : DB) (fs : FS) :
    List (String × String) → FS
  | [] => fs
  | (k, v) :: rest => applyStores env db (DB.storeRun env db fs k v) rest

/-! ## Basic lemmas about the model -/

/-- Reading back the digest just written. -/
theorem FS.update_same (fs : FS) (d : Nat) (v : Option String) :
    FS.update fs d v d = v := by
  simp [FS.update]

/-- Reading a digest other than the one written. -/
theorem FS.update_other (fs : FS) (d e : Nat) (v : Option String) (h : e ≠ d) :
    FS.update fs d v e = fs e := by
  simp [FS.update, h]

/-- Two successive writes to the same digest: the second wins. -/
theorem FS.update_update (fs : FS) (d : Nat) (v1 v2 : Option String) :
    FS.update (FS.update fs d v1) d v2 = FS.update fs d v2 := by
  funext e
  by_cases h : e = d <;> simp [FS.update, h]

/-- On a healthy disk, `store` sets the record file of `hash key` to
exactly `val` (whichever of the create/truncate branches ran). -/
theorem storeWith_allOk (hash : String → Nat) (db : DB) (fs : FS) (k v : String) :
    DB.storeWith hash Env.allOk db fs k v = some (FS.update fs (hash k) (some v)) := by
  unfold DB.storeWith PathBuf.to_str Env.allOk
  simp [FS.update_update]

/-- Health-disk `store`, on the filesystem effect. -/
theorem storeRunWith_allOk (hash : String → Nat) (db : DB) (fs : FS) (k v : String) :
    DB.storeRunWith hash Env.allOk db fs k v = FS.update fs (hash k) (some v) := by
  rw [DB.storeRunWith, storeWith_allOk]
  rfl

/-- On a healthy disk, `retrive` returns exactly the record file's content
(or `none` when there is no record file). -/
theorem retriveRunWith_allOk (hash : String → Nat) (db : DB) (fs : FS) (k : String) :
    DB.retriveRunWith hash Env.allOk db fs k = fs (hash k) := by
  unfold DB.retriveRunWith DB.retriveWith PathBuf.to_str Env.allOk
  cases h : fs (hash k) <;> simp [h]

/-- `store` completes on every outcome of the filesystem calls: the only
conceivable `none` (panic) is the `to_str().unwrap()`, which the branch
on `PathBuf.to_str` never takes. -/
theorem storeWith_ne_none (hash : String → Nat) (env : Env) (db : DB)
    (fs : FS) (k v : String) : DB.storeWith hash env db fs k v ≠ none := by
  rw [DB.storeWith]
  simp only [PathBuf.to_str]
  cases hfe : (fs (hash k)).isSome && env.metaOk <;>
    cases ho : env.openOk <;>
      cases hc : env.createOk <;>
        cases hw : env.writeOk <;>
          simp [hfe, ho, hc, hw]

/-- `retrive` completes on every outcome of the filesystem calls. -/
theorem retriveWith_ne_none (hash : String → Nat) (env : Env) (db : DB)
    (fs : FS) (k : String) : DB.retriveWith hash env db fs k ≠ none := by
  rw [DB.retriveWith]
  cases hfs : fs (hash k) <;>
    cases ho : env.openReadOk <;>
      cases hr : env.readOk <;>
        simp [PathBuf.to_str, hfs, ho, hr]

/-- The digest is a 64-bit value. -/
theorem calculate_hash_lt (k : String) : calculate_hash k < 2 ^ 64 := by
  have h : 0 < 2 ^ 64 := by norm_num
  exact Nat.mod_lt _ h

/-- `calculate_hash` maps infinitely many strings into 2^64 digests, so two
distinct keys with equal digests exist (the spec's "two distinct keys MAY
produce the same digest"). -/
theorem calculate_hash_exists_collision :
    ∃ k1 k2 : String, k1 ≠ k2 ∧ calculate_hash k1 = calculate_hash k2 := by
  obtain ⟨m, n, hmn, heq⟩ := Finite.exists_ne_map_eq_of_infinite
    (fun n : Nat =>
      (⟨calculate_hash (String.mk (List.replicate n 'a')), calculate_hash_lt _⟩ :
        Fin (2 ^ 64)))
  refine ⟨String.mk (List.replicate m 'a'), String.mk (List.replicate n 'a'), ?_, ?_⟩
  · intro hc
    apply hmn
    have hl := congrArg (fun s : String => s.data.length) hc
    simpa using hl
  · exact congrArg Fin.val heq

/-- A trace of healthy-disk `store` calls none of whose keys collide with
`k` leaves `k`'s record file absent. -/
theorem applyStores_preserves_absent (db : DB) (k : String) :
    ∀ (tr : List (String × String)) (fs : FS),
      (∀ p ∈ tr, calculate_hash p.1 ≠ calculate_hash k) →
      fs (calculate_hash k) = none →
      applyStores Env.allOk db fs tr (calculate_hash k) = none := by
  intro tr
  induction tr with
  | nil => intro fs _ hfs; exact hfs
  | cons p rest ih =>
    intro fs h hfs
    obtain ⟨pk, pv⟩ := p
    simp only [applyStores]
    apply ih
    · intro q hq
      exact h q (List.mem_cons_of_mem _ hq)
    · rw [DB.storeRun, storeRunWith_allOk, FS.update_other]
      · exact hfs
      · exact (h (pk, pv) (List.mem_cons_self _ _)).symm

/-! ## The claims -/

/-- C1: for every key `k` and value `v`, after `store(k, v)` completes with
no concurrent writer touching `k` (one sequential call, every filesystem
call succeeding), `retrieve(k)` returns `Some(v)` exactly — the full value,
unmodified. -/
theorem store_retrieve_round_trip (db : DB) (fs : FS) (k v : String) :
    DB.retriveRun Env.allOk db (DB.storeRun Env.allOk db fs k v) k = some v := by
  rw [DB.retriveRun, DB.storeRun, retriveRunWith_allOk, storeRunWith_allOk,
    FS.update_same]

/-- C2: `store(k, v1)` then `store(k, v2)` sequentially, then `retrieve(k)`,
returns `v2` — never `v1` and never a mixture: the record file afterwards
holds exactly `v2` (truncate-then-write replaced the content wholesale). -/
theorem store_overwrite_last_wins (db : DB) (fs : FS) (k v1 v2 : String) :
    DB.retriveRun Env.allOk db
      (DB.storeRun Env.allOk db (DB.storeRun Env.allOk db fs k v1) k v2) k = some v2 ∧
    DB.storeRun Env.allOk db (DB.storeRun Env.allOk db fs k v1) k v2
      (calculate_hash k) = some v2 := by
  rw [DB.retriveRun, DB.storeRun, DB.storeRun, retriveRunWith_allOk,
    storeRunWith_allOk, storeRunWith_allOk, FS.update_update, FS.update_same]
  exact ⟨rfl, rfl⟩

/-- C3 counterexample: it is NOT true that `retrieve(k)` returns `None` in
every reachable state in which `k` itself was never stored — a distinct key
colliding with `k` (such keys exist, `calculate_hash_exists_collision`)
plants `k`'s record file. -/
theorem retrieve_absence_claim_false :
    ¬ (∀ (db : DB) (k : String) (tr : List (String × String)),
        (∀ p ∈ tr, p.1 ≠ k) →
        DB.retriveRun Env.allOk db (applyStores Env.allOk db emptyFS tr) k = none) := by
  intro h
  obtain ⟨k1, k2, hne, hcol⟩ := calculate_hash_exists_collision
  have h2 := h ⟨"test"⟩ k2 [(k1, "1")] (by
    intro p hp
    rw [List.mem_singleton] at hp
    rw [hp]
    exact hne)
  simp only [applyStores] at h2
  rw [DB.retriveRun, retriveRunWith_allOk, DB.storeRun, storeRunWith_allOk,
    ← hcol, FS.update_same] at h2
  exact Option.some_ne_none _ h2

/-- C3 amended: `retrieve(k)` returns `None` in every state reached from the
fresh store by storing only keys whose digests differ from `digest(k)` —
absence holds whenever no stored key collides with `k`. -/
theorem retrieve_never_stored_collision_free (db : DB) (k : String)
    (tr : List (String × String))
    (h : ∀ p ∈ tr, calculate_hash p.1 ≠ calculate_hash k) :
    DB.retriveRun Env.allOk db (applyStores Env.allOk db emptyFS tr) k = none := by
  rw [DB.retriveRun, retriveRunWith_allOk]
  exact applyStores_preserves_absent db k tr emptyFS h rfl

/-- C3 witness: after storing `"alpha"` only, `retrieve("beta")` is `None`. -/
theorem retrieve_never_stored_witness :
    DB.retriveRun Env.allOk ⟨"test"⟩
      (applyStores Env.allOk ⟨"test"⟩ emptyFS [("alpha", "1")]) "beta" = none :=
  retrieve_never_stored_collision_free ⟨"test"⟩ "beta" [("alpha", "1")] (by decide)

/-- C4 counterexample: the claim's closing clause — after the two stores,
`retrieve(k1) == v1` and `retrieve(k2) == v2` "do not both hold" — fails
when `v1 = v2`: both retrievals then return that common value. -/
theorem collision_policy_claim_false :
    ¬ (∀ (db : DB) (fs : FS) (k1 k2 v1 v2 : String), k1 ≠ k2 →
        calculate_hash k1 = calculate_hash k2 →
        (DB.file_name db k1 = DB.file_name db k2 ∧
         DB.storeRun Env.allOk db (DB.storeRun Env.allOk db fs k1 v1) k2 v2
           (calculate_hash k2) = some v2 ∧
         ¬ (DB.retriveRun Env.allOk db
              (DB.storeRun Env.allOk db (DB.storeRun Env.allOk db fs k1 v1) k2 v2)
              k1 = some v1 ∧
            DB.retriveRun Env.allOk db
              (DB.storeRun Env.allOk db (DB.storeRun Env.allOk db fs k1 v1) k2 v2)
              k2 = some v2))) := by
  intro h
  obtain ⟨k1, k2, hne, hcol⟩ := calculate_hash_exists_collision
  apply (h ⟨"test"⟩ emptyFS k1 k2 "x" "x" hne hcol).2.2
  constructor
  · rw [DB.retriveRun, DB.storeRun, DB.storeRun, retriveRunWith_allOk,
      storeRunWith_allOk, storeRunWith_allOk, hcol, FS.update_update,
      FS.update_same]
  · rw [DB.retriveRun, DB.storeRun, DB.storeRun, retriveRunWith_allOk,
      storeRunWith_allOk, storeRunWith_allOk, hcol, FS.update_update,
      FS.update_same]

/-- C4 amended: for any hash function (the store's code is generic in it,
`DB.store` being the instance at `calculate_hash`) and any two distinct
colliding keys, `store(k1, v1)` then `store(k2, v2)` resolves both keys to
the same record file, which afterwards contains `v2`; both retrievals
return `v2`, so whenever `v1 ≠ v2` the hardened collision policy
(`retrieve(k1) == v1` and `retrieve(k2) == v2`) fails. -/
theorem collision_second_store_wins (hash : String → Nat) (db : DB) (fs : FS)
    (k1 k2 v1 v2 : String) (_hne : k1 ≠ k2) (hcol : hash k1 = hash k2) :
    DB.file_nameWith hash db k1 = DB.file_nameWith hash db k2 ∧
    DB.storeRunWith hash Env.allOk db
      (DB.storeRunWith hash Env.allOk db fs k1 v1) k2 v2 (hash k1) = some v2 ∧
    DB.retriveRunWith hash Env.allOk db
      (DB.storeRunWith hash Env.allOk db
        (DB.storeRunWith hash Env.allOk db fs k1 v1) k2 v2) k1 = some v2 ∧
    DB.retriveRunWith hash Env.allOk db
      (DB.storeRunWith hash Env.allOk db
        (DB.storeRunWith hash Env.allOk db fs k1 v1) k2 v2) k2 = some v2 ∧
    (v1 ≠ v2 →
      ¬ (DB.retriveRunWith hash Env.allOk db
           (DB.storeRunWith hash Env.allOk db
             (DB.storeRunWith hash Env.allOk db fs k1 v1) k2 v2) k1 = some v1 ∧
         DB.retriveRunWith hash Env.allOk db
           (DB.storeRunWith hash Env.allOk db
             (DB.storeRunWith hash Env.allOk db fs k1 v1) k2 v2) k2 = some v2)) := by
  have hr1 : DB.retriveRunWith hash Env.allOk db
      (DB.storeRunWith hash Env.allOk db
        (DB.storeRunWith hash Env.allOk db fs k1 v1) k2 v2) k1 = some v2 := by
    rw [retriveRunWith_allOk, storeRunWith_allOk, storeRunWith_allOk, hcol,
      FS.update_update, FS.update_same]
  have hr2 : DB.retriveRunWith hash Env.allOk db
      (DB.storeRunWith hash Env.allOk db
        (DB.storeRunWith hash Env.allOk db fs k1 v1) k2 v2) k2 = some v2 := by
    rw [retriveRunWith_allOk, storeRunWith_allOk, storeRunWith_allOk, hcol,
      FS.update_update, FS.update_same]
  refine ⟨?_, ?_, hr1, hr2, ?_⟩
  · rw [DB.file_nameWith, DB.file_nameWith, hcol]
  · rw [storeRunWith_allOk, storeRunWith_allOk, hcol, FS.update_update,
      FS.update_same]
  · intro hv hb
    rw [hr1] at hb
    exact hv (Option.some.inj hb.1).symm

/-- C4 witness: at the constant hash, storing `"a"` then `"b"` makes
`retrieve("a")` return the second key's value. -/
theorem collision_second_store_wins_witness :
    ("a" : String) ≠ "b" ∧
    DB.retriveRunWith (fun _ => 0) Env.allOk ⟨"test"⟩
      (DB.storeRunWith (fun _ => 0) Env.allOk ⟨"test"⟩
        (DB.storeRunWith (fun _ => 0) Env.allOk ⟨"test"⟩ emptyFS "a" "1") "b" "2")
      "a" = some "2" :=
  ⟨by decide,
   (collision_second_store_wins (fun _ => 0) ⟨"test"⟩ emptyFS "a" "b" "1" "2"
     (by decide) rfl).2.2.1⟩

/-- C5: `retrieve(k)` returns `None` when the record file is missing, when
opening it fails, and when reading it fails — one undistinguished `None` —
and it never terminates abnormally (no error crosses the interface). -/
theorem retrieve_collapses_errors (env : Env) (db : DB) (fs : FS) (k : String)
    (h : fs (calculate_hash k) = none ∨ env.openReadOk = false ∨
      env.readOk = false) :
    DB.retriveRun env db fs k = none ∧ DB.retrive env db fs k ≠ none := by
  constructor
  · rw [DB.retriveRun, DB.retriveRunWith, DB.retriveWith]
    rcases h with h | h | h
    · simp [PathBuf.to_str, h]
    · cases hfs : fs (calculate_hash k) <;> simp [PathBuf.to_str, hfs, h]
    · cases hfs : fs (calculate_hash k) <;>
        cases ho : env.openReadOk <;> simp [PathBuf.to_str, hfs, h, ho]
  · exact retriveWith_ne_none calculate_hash env db fs k

/-- C5 witness: retrieving a key from the empty store returns `None` and
does not fail. -/
theorem retrieve_collapses_errors_witness :
    DB.retriveRun Env.allOk ⟨"test"⟩ emptyFS "beta" = none ∧
    DB.retrive Env.allOk ⟨"test"⟩ emptyFS "beta" ≠ none :=
  retrieve_collapses_errors Env.allOk ⟨"test"⟩ emptyFS "beta" (Or.inl rfl)

/-- C6 counterexample: a store whose `write_all` fails is NOT a no-op —
after a successful truncating open, the record file that held `"old"` is
left empty (`write_all` landed no bytes), even though `store` completes
without reporting anything. -/
theorem store_noop_claim_false :
    ¬ (∀ (env : Env) (db : DB) (fs : FS) (k v : String),
        (DB.store env db fs k v).isSome = true ∧
        (env.openOk = false ∨ env.createOk = false ∨ env.writeOk = false →
          DB.storeRun env db fs k v = fs)) := by
  intro h
  have h2 := (h ⟨true, true, true, false, 0, true, true⟩ ⟨"test"⟩
    (FS.update emptyFS (calculate_hash "k") (some "old")) "k" "new").2
    (Or.inr (Or.inr rfl))
  have h3 := congrFun h2 (calculate_hash "k")
  rw [FS.update_same] at h3
  rw [DB.storeRun, DB.storeRunWith, DB.storeWith] at h3
  simp [PathBuf.to_str, FS.update_same] at h3
  exact (by decide : ¬("new".take 0 = "old")) h3

/-- C6 amended: `store(k, v)` always completes and returns unit with no
error value, panic or abort, whatever filesystem calls fail; a failed
open/create leaves the store untouched (a true no-op), but a failed
`write_all` after a successful open leaves the record file holding only
the prefix of `v` that landed — the prior content is lost, not restored. -/
theorem store_swallows_failures (env : Env) (db : DB) (fs : FS) (k v : String) :
    (DB.store env db fs k v).isSome = true ∧
    (env.openOk = false → env.createOk = false →
      DB.storeRun env db fs k v = fs) ∧
    (env.openOk = true → env.createOk = true → env.writeOk = false →
      DB.storeRun env db fs k v =
        FS.update fs (calculate_hash k) (some (v.take env.partialLen))) := by
  refine ⟨?_, ?_, ?_⟩
  · rw [DB.store]
    cases hx : DB.storeWith calculate_hash env db fs k v with
    | none => exact absurd hx (storeWith_ne_none calculate_hash env db fs k v)
    | some fs1 => rfl
  · intro h1 h2
    rw [DB.storeRun, DB.storeRunWith, DB.storeWith]
    simp only [PathBuf.to_str]
    cases hfe : (fs (calculate_hash k)).isSome && env.metaOk <;>
      simp [hfe, h1, h2]
  · intro h1 h2 h3
    rw [DB.storeRun, DB.storeRunWith, DB.storeWith]
    simp only [PathBuf.to_str]
    cases hfe : (fs (calculate_hash k)).isSome && env.metaOk <;>
      simp [hfe, h1, h2, h3, FS.update_update]

/-- C6 witness: with open and create both failing, `store` still completes
and the store is untouched. -/
theorem store_swallows_failures_witness :
    (DB.store ⟨true, false, false, false, 0, true, true⟩ ⟨"test"⟩ emptyFS
      "k" "v").isSome = true ∧
    DB.storeRun ⟨true, false, false, false, 0, true, true⟩ ⟨"test"⟩ emptyFS
      "k" "v" = emptyFS :=
  ⟨(store_swallows_failures ⟨true, false, false, false, 0, true, true⟩ ⟨"test"⟩
      emptyFS "k" "v").1,
   (store_swallows_failures ⟨true, false, false, false, 0, true, true⟩ ⟨"test"⟩
      emptyFS "k" "v").2.1 rfl rfl⟩

/-- C7: `DB::new` aborts (panics) exactly when the root is missing and
creating it fails — "already exists" is never an error; after any
successful open, a second open on the same root always succeeds, returns
the same state, and no record file was erased or modified; and the
directory-creation failure is the core's only abnormal-termination path
(`store`/`retrive` always complete). -/
theorem new_idempotent_and_fatal (c1 c2 : Bool) (path : String) (st : DirFS) :
    (DB.new c1 path st = none ↔ st.rootExists = false ∧ c1 = false) ∧
    (∀ db1 st1, DB.new c1 path st = some (db1, st1) →
      DB.new c2 path st1 = some (db1, st1) ∧ st1.files = st.files) ∧
    (∀ (env : Env) (db : DB) (fs : FS) (k v : String),
      DB.store env db fs k v ≠ none) ∧
    (∀ (env : Env) (db : DB) (fs : FS) (k : String),
      DB.retrive env db fs k ≠ none) := by
  refine ⟨?_, ?_, ?_, ?_⟩
  · rw [DB.new]
    cases hr : st.rootExists <;> cases c1 <;> simp
  · intro db1 st1 h
    rw [DB.new] at h
    cases hr : st.rootExists <;> rw [hr] at h <;> simp at h
    · cases c1 <;> simp at h
      obtain ⟨h1, h2⟩ := h
      rw [DB.new, ← h2, ← h1]
      simp
    · obtain ⟨h1, h2⟩ := h
      rw [DB.new, ← h2, ← h1]
      simp [hr]
  · intro env db fs k v
    exact storeWith_ne_none calculate_hash env db fs k v
  · intro env db fs k
    exact retriveWith_ne_none calculate_hash env db fs k

/-- C7 witness: reopening a root that already exists succeeds even when
directory creation would fail, and the record files are untouched. -/
theorem new_idempotent_witness :
    DB.new false "test" ⟨true, emptyFS⟩ =
      some (⟨"test"⟩, (⟨true, emptyFS⟩ : DirFS)) ∧
    (DirFS.files ⟨true, emptyFS⟩) = emptyFS :=
  ⟨((new_idempotent_and_fatal false false "test" ⟨true, emptyFS⟩).2.1
      ⟨"test"⟩ ⟨true, emptyFS⟩ rfl).1,
   ((new_idempotent_and_fatal false false "test" ⟨true, emptyFS⟩).2.1
      ⟨"test"⟩ ⟨true, emptyFS⟩ rfl).2⟩

/-- C8: the digest function is pure and total — it never fails and always
yields a 64-bit value — and deterministic: two calls on equal keys return
the same digest. -/
theorem calculate_hash_total_deterministic (k1 k2 : String) (h : k1 = k2) :
    calculate_hash k1 < 2 ^ 64 ∧ calculate_hash k1 = calculate_hash k2 :=
  ⟨calculate_hash_lt k1, congrArg calculate_hash h⟩

/-- C8 witness: repeated calls on `"alpha"` agree and are 64-bit. -/
theorem calculate_hash_total_deterministic_witness :
    calculate_hash "alpha" < 2 ^ 64 ∧
    calculate_hash "alpha" = calculate_hash "alpha" :=
  calculate_hash_total_deterministic "alpha" "alpha" rfl

/-- C9: `store(k, v)` changes at most the one record file of `digest(k)` —
every other record file under the root is unchanged — `retrieve(k)` changes
no file at all, and the touched file is the one named by the decimal
representation of `digest(k)` directly under the store root. -/
theorem store_retrieve_frame (env : Env) (db : DB) (fs : FS) (k v : String) :
    (∀ fs1, DB.store env db fs k v = some fs1 →
      ∀ d, d ≠ calculate_hash k → fs1 d = fs d) ∧
    (∀ r fs2, DB.retrive env db fs k = some (r, fs2) → fs2 = fs) ∧
    DB.file_name db k =
      some (db.storage ++ "/" ++ Nat.repr (calculate_hash k)) := by
  refine ⟨?_, ?_, rfl⟩
  · intro fs1 h1 d hd
    rw [DB.store, DB.storeWith] at h1
    simp only [PathBuf.to_str] at h1
    cases hfe : (fs (calculate_hash k)).isSome && env.metaOk <;>
      rw [hfe] at h1 <;>
        cases ho : env.openOk <;>
          cases hc : env.createOk <;>
            cases hw : env.writeOk <;>
              simp [ho, hc, hw] at h1 <;>
                rw [← h1] <;>
                  simp [FS.update_other, hd]
  · intro r fs2 h2
    rw [DB.retrive, DB.retriveWith] at h2
    cases hfs : fs (calculate_hash k) <;>
      cases ho : env.openReadOk <;>
        cases hr : env.readOk <;>
          simp [PathBuf.to_str, hfs, ho, hr] at h2 <;>
            exact h2.2.symm

/-- C9 witness: storing `"alpha"` leaves the (absent) record file of the
unrelated digest `0` absent. -/
theorem store_retrieve_frame_witness :
    (0 : Nat) ≠ calculate_hash "alpha" ∧
    FS.update (FS.update emptyFS (calculate_hash "alpha") (some ""))
      (calculate_hash "alpha") (some "1") 0 = emptyFS 0 :=
  ⟨by decide,
   (store_retrieve_frame Env.allOk ⟨"test"⟩ emptyFS "alpha" "1").1
     (FS.update (FS.update emptyFS (calculate_hash "alpha") (some ""))
       (calculate_hash "alpha") (some "1")) rfl 0 (by decide)⟩

/-- C10: for every handle (its `storage` a `PathBuf` holding a Rust
`String`'s valid UTF-8 bytes, as `DB::new` builds it), the
`to_str().unwrap()` in `store` and `retrive` always succeeds — the panic
branch is unreachable — and neither operation ever terminates
abnormally. -/
theorem no_panic_unwrap (env : Env) (db : DB) (fs : FS) (k v : String) :
    PathBuf.to_str db.storage = some db.storage ∧
    (DB.file_name db k).isSome = true ∧
    DB.store env db fs k v ≠ none ∧
    DB.retrive env db fs k ≠ none :=
  ⟨rfl, rfl, storeWith_ne_none calculate_hash env db fs k v,
    retriveWith_ne_none calculate_hash env db fs k⟩
